import Mathlib

/-!
Shallow embedding of the `dyngeseth-home` voice-transcription frontend
(`src/src/hooks/useTranscriber.ts`, three evolving variants of the hook, plus
the Azure-function backend helpers), together with theorems settling the
specification's claims about the transcript store, the backend availability
prober, the engine selector, and the silence-segmented capture session.

Conventions of the embedding:
* Machine integers of the source (milliseconds, byte counts, amplitude
  averages) become `Nat`; no arithmetic in the modelled code can overflow a
  JS double in any scenario the claims quantify over.
* The browser's JSON codec and `localStorage` are external collaborators; a
  persisted payload is modelled by what `localStorage.getItem` + `JSON.parse`
  can observe of it: absent, present-but-unparsable (`JSON.parse` throws), or
  parsed to a list of records.  `JSON.stringify` of a record list produces a
  payload that parses back to exactly that list.
* The event-driven callbacks of the capture session (the 100 ms amplitude
  sampler, the silence `setTimeout`, `MediaRecorder.ondataavailable` /
  `onstop`, the transcription promise settling, the user toggling the session
  off) become a step function on an explicit session state, driven by discrete
  events that carry the wall-clock readings (`Date.now()`) and payloads the
  callbacks observe.
-/

namespace Dyngeseth

/-! ## Transcript records and the persistent store
    (`useTranscriber.ts` variant 3, lines 597-624 of the concatenated file) -/

/-- The `source` field of a `Transcript`: which engine produced it. -/
inductive Source
  | lytt
  | cloud
  | browser
deriving DecidableEq, Repr

/-- A `Transcript` record as declared in the source: id, text, language,
createdAt, source. -/
structure Transcript where
  id : String
  text : String
  language : String
  createdAt : String
  source : Source
deriving DecidableEq, Repr

/-- What `localStorage.getItem(STORAGE_KEY)` + `JSON.parse` can observe of the
persisted slot: the key is absent (`getItem` returns `null`), the stored
string does not parse (`JSON.parse` throws), or it parses to a record list.
The JSON codec itself is an external collaborator of the core. -/
inductive PersistedPayload
  | missing
  | unparsable
  | parsed (items : List Transcript)
deriving DecidableEq, Repr

/-- The function `loadTranscripts()`: try to return `JSON.parse` of the
stored string, defaulted to the two-character empty-array literal when the
key is missing; a parse failure is caught and yields the empty list. -/
def loadTranscripts : PersistedPayload → List Transcript
  | .missing => []
  | .unparsable => []
  | .parsed items => items

/-- The function `saveTranscripts(items)`: `setItem(KEY, JSON.stringify(items))`.
`JSON.stringify` of a record list always yields a string that `JSON.parse`
maps back to exactly that list. -/
def saveTranscripts (items : List Transcript) : PersistedPayload :=
  .parsed items

/-- In-memory React state (`transcripts`) paired with the persisted slot. -/
structure StoreState where
  mem : List Transcript
  persisted : PersistedPayload
deriving DecidableEq, Repr

/-- The three store mutations the hook performs. -/
inductive StoreOp
  | insert (t : Transcript)
  | remove (id : String)
  | clear
deriving DecidableEq, Repr

/-- One store mutation, as the hook implements it:
* insert (the `setTranscripts((prev) => ...)` updater in every engine's
  success path): `updated = [entry, ...prev]; saveTranscripts(updated)`;
* `deleteTranscript(id)`: `updated = prev.filter((t) => t.id !== id);
  saveTranscripts(updated)`;
* `clearAll()`: `setTranscripts([]); saveTranscripts([])`. -/
def applyStoreOp (s : StoreState) : StoreOp → StoreState
  | .insert t =>
      let updated := t :: s.mem
      { mem := updated, persisted := saveTranscripts updated }
  | .remove id =>
      let updated := s.mem.filter (fun t => t.id ≠ id)
      { mem := updated, persisted := saveTranscripts updated }
  | .clear =>
      { mem := [], persisted := saveTranscripts [] }

/-- Run a finite sequence of store mutations. -/
def runStoreOps (s : StoreState) (ops : List StoreOp) : StoreState :=
  ops.foldl applyStoreOp s

/-- The state the hook starts from: `useState<Transcript[]>(loadTranscripts)`
reads the persisted slot once. -/
def initStore (p : PersistedPayload) : StoreState :=
  { mem := loadTranscripts p, persisted := p }

/-- Modelled from the spec's words, for comparison with `applyStoreOp`:
"insert prepends the new record (newest-first order), remove keeps exactly
the records whose id differs from the given one, clear yields the empty
sequence". -/
def specStoreStep (l : List Transcript) : StoreOp → List Transcript
  | .insert t => t :: l
  | .remove id => l.filter (fun r => r.id ≠ id)
  | .clear => []

/-- Spec-side semantics of a mutation sequence. -/
def specStoreRun (l : List Transcript) (ops : List StoreOp) : List Transcript :=
  ops.foldl specStoreStep l

/-! ## Silence-segmented capture session
    (`startCloudEngine` / `startChunk` / cloud branch of `toggle`,
    variant 2, lines 405-557) -/

/-- Source constant `SILENCE_THRESHOLD = 10` — avg amplitude below this = silence. -/
def SILENCE_THRESHOLD : Nat := 10

/-- Source constant `SPEECH_THRESHOLD = 20` — avg amplitude must reach this at least
once per chunk. -/
def SPEECH_THRESHOLD : Nat := 20

/-- Source constant `SILENCE_DELAY_MS = 1500` — pause duration before auto-sending. -/
def SILENCE_DELAY_MS : Nat := 1500

/-- Source constant `WARMUP_MS = 500` — ignore silence in the first 500 ms of a chunk. -/
def WARMUP_MS : Nat := 500

/-- Noise floor of the dispatch guard `blob.size > 500`. -/
def NOISE_FLOOR_BYTES : Nat := 500

/-- State of the current `MediaRecorder`:
* `recording`  — the browser reports the recorder as recording;
* `stopRequested` — `recorder.stop()` has been called (the browser state is
  already inactive) but the queued `onstop` handler has not yet run;
* `inactive`  — the `onstop` handler has run and no new recorder has been
  started. -/
inductive RecState
  | recording
  | stopRequested
  | inactive
deriving DecidableEq, Repr

/-- The mutable state of one continuous cloud capture session: the refs
(`continuousRef`, `streamRef`, `chunkStartTimeRef`, `speechDetectedRef`,
`silenceTimerRef`, `chunksRef`, `mediaRecorderRef`) together with the React
state the session touches (`isProcessing`, `error`, `transcripts` plus the
persisted slot, `listening`).  `silenceTimer` holds the absolute time at
which the pending `setTimeout` will fire; `chunkBytes` the total size of the
buffered data (`blob.size` is the sum of the part sizes); `pendingDispatch`
is true while an `await transcribeWithCloud(...)` is in flight;
`dispatchCount` counts the transcription calls made (instrumentation only —
no branch reads it). -/
structure SessState where
  continuous : Bool
  streamOpen : Bool
  listening : Bool
  chunkStart : Nat
  speechDetected : Bool
  silenceTimer : Option Nat
  chunkBytes : Nat
  recState : RecState
  pendingDispatch : Bool
  isProcessing : Bool
  error : Option String
  transcripts : List Transcript
  persisted : PersistedPayload
  dispatchCount : Nat
deriving DecidableEq, Repr

/-- Discrete events driving the session, each carrying the wall-clock reading
and payload its callback observes:
* `tick now avg` — one run of the 100 ms `setInterval` sampler, `avg` the
  computed average amplitude;
* `timerFire now` — the silence `setTimeout` callback runs;
* `data size` — `recorder.ondataavailable` with a blob part of `size` bytes;
* `stopped now` — the `recorder.onstop` handler runs, up to and including the
  dispatch decision (if it dispatches, the handler suspends at the `await`);
* `dispatchOk now text id createdAt` — the in-flight transcription promise
  resolves with `text` (the fresh `crypto.randomUUID()` and ISO timestamp the
  resumed handler would draw are carried on the event);
* `dispatchErr now msg` — the in-flight transcription promise rejects;
* `toggleStop now` — the user toggles off (`toggle()` with `listening` true
  and the cloud engine selected). -/
inductive Ev
  | tick (now : Nat) (avg : Nat)
  | timerFire (now : Nat)
  | data (size : Nat)
  | stopped (now : Nat)
  | dispatchOk (now : Nat) (text : String) (id : String) (createdAt : String)
  | dispatchErr (now : Nat) (msg : String)
  | toggleStop (now : Nat)
deriving DecidableEq, Repr

/-- The wall-clock reading an event carries. -/
def Ev.time : Ev → Nat
  | .tick now _ => now
  | .timerFire now => now
  | .data _ => 0
  | .stopped now => now
  | .dispatchOk now _ _ _ => now
  | .dispatchErr now _ => now
  | .toggleStop now => now

/-- The insert path shared by every success branch:
`updated = [entry, ...prev]; saveTranscripts(updated)`. -/
def insertTranscript (entry : Transcript) (s : SessState) : SessState :=
  let updated := entry :: s.transcripts
  { s with transcripts := updated, persisted := saveTranscripts updated }

/-- Tail of `recorder.onstop`: `if (continuousRef.current) { startChunk() }
else { release the stream }`.  `startChunk()` itself begins with
`if (!continuousRef.current || !streamRef.current) return`, then resets
`chunksRef`, `chunkStartTimeRef = Date.now()`, `speechDetectedRef = false`
and starts a new recorder on the same stream. -/
def continueLoop (now : Nat) (s : SessState) : SessState :=
  if s.continuous then
    if s.streamOpen then
      { s with chunkBytes := 0, chunkStart := now,
               speechDetected := false, recState := .recording }
    else s
  else
    { s with streamOpen := false }

/-- One step of the session, transcribed callback by callback from the
source (variant 2, lines 429-557).  Events whose callback could not run in
the given state (a fire of a timer that is not armed or not yet due, an
`onstop` with no stop requested, a promise settling with no dispatch in
flight, a toggle-off while not listening) leave the state unchanged. -/
def step (lang : String) (s : SessState) : Ev → SessState
  | .tick now avg =>
      -- the setInterval callback, lines 429-455
      if !s.continuous then s
      else if now - s.chunkStart < WARMUP_MS then s
      else
        let s := if SPEECH_THRESHOLD ≤ avg then { s with speechDetected := true } else s
        if avg < SILENCE_THRESHOLD then
          match s.silenceTimer with
          | none => { s with silenceTimer := some (now + SILENCE_DELAY_MS) }
          | some _ => s
        else
          { s with silenceTimer := none }
  | .timerFire now =>
      -- the setTimeout callback, lines 442-447
      match s.silenceTimer with
      | some deadline =>
          if deadline ≤ now then
            let s := { s with silenceTimer := none }
            if s.recState = .recording then { s with recState := .stopRequested } else s
          else s
      | none => s
  | .data size =>
      -- recorder.ondataavailable, lines 465-467
      if 0 < size then { s with chunkBytes := s.chunkBytes + size } else s
  | .stopped now =>
      -- recorder.onstop, lines 469-506, up to the dispatch decision
      if s.recState = .stopRequested then
        let s := { s with recState := .inactive }
        if NOISE_FLOOR_BYTES < s.chunkBytes ∧ s.speechDetected = true then
          { s with isProcessing := true, error := none,
                   pendingDispatch := true, dispatchCount := s.dispatchCount + 1 }
        else
          continueLoop now s
      else s
  | .dispatchOk now text id createdAt =>
      -- the handler resumes after `await transcribeWithCloud` resolves
      if s.pendingDispatch then
        let s := { s with pendingDispatch := false }
        let s :=
          if text.trim ≠ "" then
            insertTranscript
              { id := id, text := text.trim, language := lang,
                createdAt := createdAt, source := .cloud } s
          else s
        continueLoop now { s with isProcessing := false }
      else s
  | .dispatchErr now msg =>
      -- the handler resumes in the catch branch
      if s.pendingDispatch then
        continueLoop now
          { s with pendingDispatch := false, error := some msg, isProcessing := false }
      else s
  | .toggleStop _ =>
      -- toggle(), cloud branch with `listening` true, lines 518-542
      if s.listening then
        let s := { s with continuous := false, silenceTimer := none, listening := false }
        if s.recState = .recording then { s with recState := .stopRequested }
        else { s with streamOpen := false }
      else s

/-- Run the session over a finite event trace. -/
def runSess (lang : String) (s : SessState) (evs : List Ev) : SessState :=
  evs.foldl (step lang) s

/-- The state right after `startCloudEngine` succeeded and the first
`startChunk()` ran at time `now`, with `ts` the transcripts loaded at mount
from payload `p`. -/
def initSession (now : Nat) (ts : List Transcript) (p : PersistedPayload) : SessState :=
  { continuous := true, streamOpen := true, listening := true,
    chunkStart := now, speechDetected := false, silenceTimer := none,
    chunkBytes := 0, recState := .recording, pendingDispatch := false,
    isProcessing := false, error := none, transcripts := ts, persisted := p,
    dispatchCount := 0 }

/-- A segment's sampling context is fresh at time `t0`: a chunk just started
there, no silence timer is pending, the recorder is live and the session
active.  This is the state every `startChunk()` leaves behind when no timer
survived from before the chunk. -/
def FreshSegment (s : SessState) (t0 : Nat) : Prop :=
  s.continuous = true ∧ s.recState = .recording ∧ s.chunkStart = t0 ∧
    s.silenceTimer = none

instance (s : SessState) (t0 : Nat) : Decidable (FreshSegment s t0) := by
  unfold FreshSegment; infer_instance

/-- Events produced by the amplitude-sampling machinery alone: sampler ticks
and silence-timer fires. -/
def samplerEv : Ev → Bool
  | .tick _ _ => true
  | .timerFire _ => true
  | _ => false

/-- A fresh session started at time 0 with an empty transcript history. -/
def sess0 : SessState := initSession 0 [] (PersistedPayload.parsed [])

/-- The trace of one closed speech segment: speech at 600 ms, a kilobyte of
audio buffered, silence from 700 ms arming the timer, the timer firing at
2200 ms, and the stop handler running at 2250 ms and dispatching. -/
def c1Trace : List Ev :=
  [.tick 600 50, .data 1000, .tick 700 5, .timerFire 2200, .stopped 2250]

/-- The session state after `c1Trace`, from a fresh session started at 0. -/
def c1State : SessState :=
  runSess "en" sess0 c1Trace

/-- A closed segment awaiting its stop handler: 100 buffered bytes and no
speech detected. -/
def c3State : SessState :=
  { continuous := true, streamOpen := true, listening := true,
    chunkStart := 0, speechDetected := false, silenceTimer := none,
    chunkBytes := 100, recState := .stopRequested, pendingDispatch := false,
    isProcessing := false, error := none, transcripts := [],
    persisted := PersistedPayload.parsed [], dispatchCount := 0 }

/-- An active session with a transcription dispatch in flight. -/
def c6State : SessState :=
  { continuous := true, streamOpen := true, listening := true,
    chunkStart := 0, speechDetected := true, silenceTimer := none,
    chunkBytes := 0, recState := .inactive, pendingDispatch := true,
    isProcessing := true, error := none, transcripts := [],
    persisted := PersistedPayload.parsed [], dispatchCount := 1 }

/-- A sampler trace closing a segment by silence: a silent reading at 600 ms
arms the timer, which fires at 2100 ms. -/
def c4Trace : List Ev := [.tick 600 5, .timerFire 2100]

/-- A sampler trace whose only speech-level reading lies inside the warm-up
window, followed by post-warm-up silence closing the segment. -/
def c10Trace : List Ev := [.tick 100 50, .tick 600 5, .timerFire 2100]

/-! ## Fallback recognizer result handler
    (`recognition.onresult`, variant 3, lines 728-752) -/

/-- One entry of the `SpeechRecognitionResultList` slice the handler walks:
`result.isFinal` and `result[0].transcript`. -/
structure RecResult where
  isFinal : Bool
  transcript : String
deriving DecidableEq, Repr

/-- The handler's first loop half: concatenate the non-final transcripts. -/
def interimTextOf (rs : List RecResult) : String :=
  rs.foldl (fun acc r => if r.isFinal then acc else acc ++ r.transcript) ""

/-- The handler's second loop half: concatenate the final transcripts. -/
def finalTextOf (rs : List RecResult) : String :=
  rs.foldl (fun acc r => if r.isFinal then acc ++ r.transcript else acc) ""

/-- State the fallback recognizer's result handler touches. -/
structure BrowserState where
  interim : String
  transcripts : List Transcript
  persisted : PersistedPayload
deriving DecidableEq, Repr

/-- The handler `recognition.onresult`: split the results into interim and
final text, `setInterim(interimText)`, and if `finalText.trim()` is truthy
insert one record with the trimmed text and clear the interim text. -/
def onResult (lang id createdAt : String) (rs : List RecResult)
    (s : BrowserState) : BrowserState :=
  let interimText := interimTextOf rs
  let finalText := finalTextOf rs
  let s := { s with interim := interimText }
  if finalText.trim ≠ "" then
    let entry : Transcript :=
      { id := id, text := finalText.trim, language := lang,
        createdAt := createdAt, source := .browser }
    let updated := entry :: s.transcripts
    { s with transcripts := updated, persisted := saveTranscripts updated,
             interim := "" }
  else s

/-- The insert guard of `startWhisperEngine`'s `onstop` handler (variant 3,
lines 793-807): persist `text.trim()` as one record iff it is non-empty. -/
def whisperStopInsert (lang id createdAt : String) (src : Source)
    (text : String) (ts : List Transcript) : List Transcript :=
  if text.trim ≠ "" then
    { id := id, text := text.trim, language := lang,
      createdAt := createdAt, source := src } :: ts
  else ts

/-- Every record in the store has non-empty text that is the trim of some
backend result (the shape every insert path produces: each inserts
`text.trim` only after checking it is non-empty). -/
def GoodStore (l : List Transcript) : Prop :=
  ∀ t ∈ l, t.text ≠ "" ∧ ∃ raw : String, t.text = raw.trim

/-- A pending silence timer with deadline `d` is well-armed with respect to
the events seen so far: it was armed by a post-warm-up sampler tick at `ta`
that read an amplitude below the silence threshold, `d` is delay past `ta`,
and every sampled amplitude after `ta` stayed below the silence threshold
(otherwise the cancel branch would have cleared the timer). -/
def ArmedOK (t0 : Nat) (seen : List Ev) (d : Nat) : Prop :=
  ∃ ta a, d = ta + SILENCE_DELAY_MS ∧ Ev.tick ta a ∈ seen ∧
    a < SILENCE_THRESHOLD ∧ t0 + WARMUP_MS ≤ ta ∧
    ∀ n b, Ev.tick n b ∈ seen → ta < n → b < SILENCE_THRESHOLD

/-- A segment starting at `t0` was closed by the debounced silence rule
within the trace: some post-warm-up tick at `ta` read silence, the timer
fired at `tf`, a full silence delay later, and every sampled amplitude in
the waiting window stayed below the silence threshold. -/
def ClosedOK (t0 : Nat) (evs : List Ev) : Prop :=
  ∃ ta a tf, Ev.tick ta a ∈ evs ∧ a < SILENCE_THRESHOLD ∧
    t0 + WARMUP_MS ≤ ta ∧ Ev.timerFire tf ∈ evs ∧ ta + SILENCE_DELAY_MS ≤ tf ∧
    ∀ n b, Ev.tick n b ∈ evs → ta < n → n < tf → b < SILENCE_THRESHOLD

/-! ## Backend availability prober
    (`checkLyttBridge` / `checkCloudApi`, lines 633-649) -/

/-- Outcome of one `fetch` against a health endpoint, before the
`AbortSignal.timeout` budget is applied: either the server replies after
`elapsedMs` milliseconds with `res.ok` true or false, or the request fails
with a network error. -/
inductive FetchOutcome
  | reply (elapsedMs : Nat) (ok : Bool)
  | netError
deriving DecidableEq, Repr

/-- A fetch guarded by `AbortSignal.timeout(budget)`: a reply that
arrives within the budget resolves with the response; a reply that would
arrive later is aborted by the signal and the promise rejects, as does a
network error. -/
def fetchWithTimeout (budgetMs : Nat) : FetchOutcome → Except Unit Bool
  | .reply t ok => if t ≤ budgetMs then .ok ok else .error ()
  | .netError => .error ()

/-- Timeout budget of the Tier1 (local lytt-bridge) health probe. -/
def LYTT_TIMEOUT_MS : Nat := 1500

/-- Timeout budget of the Tier2 (cloud function) health probe. -/
def CLOUD_TIMEOUT_MS : Nat := 3000

/-- The probe `checkLyttBridge()`: await the health fetch with a 1500 ms
budget and return `res.ok`; any rejection is caught and yields false. -/
def checkLyttBridge (o : FetchOutcome) : Bool :=
  match fetchWithTimeout LYTT_TIMEOUT_MS o with
  | .ok ok => ok
  | .error _ => false

/-- The probe `checkCloudApi()`: await the health fetch with a 3000 ms
budget and return `res.ok`; any rejection is caught and yields false. -/
def checkCloudApi (o : FetchOutcome) : Bool :=
  match fetchWithTimeout CLOUD_TIMEOUT_MS o with
  | .ok ok => ok
  | .error _ => false

/-! ## Engine selector (`detectEngine`, lines 709-717; `canTranscribe`,
    line 866) -/

/-- The `Engine` type of variant 3 (the `null` "still detecting" state is the
transient absence of a selection and is not needed by the claims). -/
inductive Engine
  | lytt
  | cloud
  | browser
deriving DecidableEq, Repr

/-- The selector `detectEngine()`: commit to lytt if `checkLyttBridge()`
resolves true, else to cloud if `checkCloudApi()` resolves true, else to
browser — expressed on the two probes' results. -/
def detectEngine (lyttReachable cloudReachable : Bool) : Engine :=
  if lyttReachable then .lytt
  else if cloudReachable then .cloud
  else .browser

/-- The derived flag `canTranscribe`: the engine is lytt or cloud, or the
browser speech facility is supported. -/
def canTranscribe (e : Engine) (browserSupported : Bool) : Bool :=
  e == .lytt || e == .cloud || browserSupported

/-! ## Theorems -/

/-- C8: loading the transcript store never throws — it is total on every
shape the persisted slot can take — returning the stored sequence when the
payload parses and the empty sequence on missing or corrupted data. -/
theorem c8_load_total_degrades_to_empty :
    loadTranscripts .missing = [] ∧ loadTranscripts .unparsable = [] ∧
      ∀ items : List Transcript, loadTranscripts (.parsed items) = items :=
  ⟨rfl, rfl, fun _ => rfl⟩

/-- C7: the availability prober is total (any network error, timeout or
non-success status collapses to unreachable, nothing escapes to the caller),
the Tier1 probe runs on a 1.5 s budget and the Tier2 probe on a 3 s budget,
and each reports reachable exactly when the health request completes with a
success status within its budget. -/
theorem c7_prober_never_throws_timeouts :
    LYTT_TIMEOUT_MS = 1500 ∧ CLOUD_TIMEOUT_MS = 3000 ∧
    ∀ o : FetchOutcome,
      (checkLyttBridge o = true ↔
        ∃ t, o = .reply t true ∧ t ≤ LYTT_TIMEOUT_MS) ∧
      (checkCloudApi o = true ↔
        ∃ t, o = .reply t true ∧ t ≤ CLOUD_TIMEOUT_MS) := by
  refine ⟨rfl, rfl, fun o => ⟨?_, ?_⟩⟩ <;>
  · cases o with
    | netError => simp [checkLyttBridge, checkCloudApi, fetchWithTimeout]
    | reply t ok =>
        by_cases ht : t ≤ 1500 <;> by_cases ht2 : t ≤ 3000 <;> cases ok <;>
          simp [checkLyttBridge, checkCloudApi, fetchWithTimeout,
            LYTT_TIMEOUT_MS, CLOUD_TIMEOUT_MS, ht, ht2]

/-- C2: engine selection strictly respects priority: Tier1 reachable selects
Tier1 regardless of everything else; Tier1 unreachable and Tier2 reachable
selects Tier2; both unreachable selects the browser fallback, and that
selection can transcribe exactly when the device-native recognizer is
present — otherwise no engine is available. -/
theorem c2_engine_priority :
    (∀ cloudUp : Bool, detectEngine true cloudUp = .lytt) ∧
    detectEngine false true = .cloud ∧
    detectEngine false false = .browser ∧
    (∀ bs : Bool, canTranscribe (detectEngine false false) bs = bs) := by
  refine ⟨fun _ => rfl, rfl, rfl, fun bs => ?_⟩
  cases bs <;> rfl

/-- Auxiliary invariant for the store: if the in-memory list matches what
loads from the persisted slot, every mutation sequence keeps the two in sync
and agrees with the spec-side list semantics. -/
theorem store_sync_aux (ops : List StoreOp) :
    ∀ s : StoreState, loadTranscripts s.persisted = s.mem →
      (runStoreOps s ops).mem = specStoreRun s.mem ops ∧
        loadTranscripts (runStoreOps s ops).persisted = (runStoreOps s ops).mem := by
  induction ops with
  | nil => exact fun s h => ⟨rfl, h⟩
  | cons op rest ih =>
      intro s h
      have hsync : loadTranscripts (applyStoreOp s op).persisted = (applyStoreOp s op).mem := by
        cases op <;> rfl
      have hstep : (applyStoreOp s op).mem = specStoreStep s.mem op := by
        cases op <;> rfl
      have hrest := ih (applyStoreOp s op) hsync
      constructor
      · calc (runStoreOps s (op :: rest)).mem
            = (runStoreOps (applyStoreOp s op) rest).mem := rfl
          _ = specStoreRun (applyStoreOp s op).mem rest := hrest.1
          _ = specStoreRun s.mem (op :: rest) := by rw [hstep]; rfl
      · exact hrest.2

/-- C5: for every start payload and finite sequence of insert/remove/clear
operations on the store, the resulting in-memory sequence is exactly the
spec-side semantics (insert prepends newest-first, remove keeps exactly the
records with a different id, clear empties), a load after the run returns
exactly that sequence, and serialize-then-deserialize is lossless for valid
record lists. -/
theorem c5_store_algebra :
    (∀ (p : PersistedPayload) (ops : List StoreOp),
        (runStoreOps (initStore p) ops).mem = specStoreRun (loadTranscripts p) ops) ∧
    (∀ (p : PersistedPayload) (ops : List StoreOp),
        loadTranscripts (runStoreOps (initStore p) ops).persisted
          = (runStoreOps (initStore p) ops).mem) ∧
    (∀ items : List Transcript, loadTranscripts (saveTranscripts items) = items) := by
  refine ⟨fun p ops => ?_, fun p ops => ?_, fun _ => rfl⟩
  · exact (store_sync_aux ops (initStore p) rfl).1
  · exact (store_sync_aux ops (initStore p) rfl).2

/-- The tail of the stop handler never touches the dispatch counter. -/
theorem continueLoop_dispatchCount (now : Nat) (s : SessState) :
    (continueLoop now s).dispatchCount = s.dispatchCount := by
  unfold continueLoop
  split
  · split <;> rfl
  · rfl

/-- The tail of the stop handler never touches the in-flight dispatch flag. -/
theorem continueLoop_pendingDispatch (now : Nat) (s : SessState) :
    (continueLoop now s).pendingDispatch = s.pendingDispatch := by
  unfold continueLoop
  split
  · split <;> rfl
  · rfl

/-- C3: at segment closure a segment whose amplitude never reached the
speech threshold, or whose blob does not exceed the 500-byte noise floor, is
discarded — the dispatch counter does not move and no dispatch goes in
flight — and a transcription dispatch is issued exactly when speech was
detected and the blob size is above the floor. -/
theorem c3_no_speech_no_dispatch (lang : String) (s : SessState) (now : Nat)
    (hrec : s.recState = .stopRequested) (hpend : s.pendingDispatch = false) :
    ((s.speechDetected = false ∨ s.chunkBytes < NOISE_FLOOR_BYTES) →
        (step lang s (.stopped now)).dispatchCount = s.dispatchCount ∧
          (step lang s (.stopped now)).pendingDispatch = false) ∧
    ((step lang s (.stopped now)).dispatchCount = s.dispatchCount + 1 ↔
        NOISE_FLOOR_BYTES < s.chunkBytes ∧ s.speechDetected = true) ∧
    (NOISE_FLOOR_BYTES < s.chunkBytes ∧ s.speechDetected = true →
        (step lang s (.stopped now)).pendingDispatch = true) := by
  by_cases hg : NOISE_FLOOR_BYTES < s.chunkBytes ∧ s.speechDetected = true
  · refine ⟨fun hdisc => ?_, ?_, fun _ => ?_⟩
    · rcases hdisc with h | h
      · rw [h] at hg; simp at hg
      · exact absurd hg.1 (by omega)
    · simp [step, hrec, hg]
    · simp [step, hrec, hg]
  · have hstep : step lang s (.stopped now)
        = continueLoop now { s with recState := RecState.inactive } := by
      simp [step, hrec, hg]
    have hcount : (step lang s (.stopped now)).dispatchCount = s.dispatchCount := by
      rw [hstep, continueLoop_dispatchCount]
    have hpend2 : (step lang s (.stopped now)).pendingDispatch = false := by
      rw [hstep, continueLoop_pendingDispatch]
      exact hpend
    refine ⟨fun _ => ⟨hcount, hpend2⟩, ?_, fun h => absurd h hg⟩
    rw [hcount]
    simp [hg]

/-- C6: when an in-flight transcription dispatch fails, the failure is
recoverable: the error message is surfaced, nothing is inserted into the
transcript store (in memory or persisted), the stream and session stay up,
and the rotation immediately starts the next segment recorder. -/
theorem c6_dispatch_failure_recoverable (lang msg : String) (now : Nat)
    (s : SessState) (hp : s.pendingDispatch = true) (hc : s.continuous = true)
    (ho : s.streamOpen = true) :
    (step lang s (.dispatchErr now msg)).error = some msg ∧
    (step lang s (.dispatchErr now msg)).transcripts = s.transcripts ∧
    (step lang s (.dispatchErr now msg)).persisted = s.persisted ∧
    (step lang s (.dispatchErr now msg)).streamOpen = true ∧
    (step lang s (.dispatchErr now msg)).continuous = true ∧
    (step lang s (.dispatchErr now msg)).listening = s.listening ∧
    (step lang s (.dispatchErr now msg)).recState = .recording ∧
    (step lang s (.dispatchErr now msg)).isProcessing = false := by
  simp [step, hp, continueLoop, hc, ho]

/-- C1 (divergence exhibit): after a speech segment closes by silence while
the session is still active, the dispatch is in flight (`pendingDispatch`)
but no new segment recorder is capturing — `recState` is `inactive`, not
`recording` — and the next recorder starts only once the transcription
promise settles.  The dispatch therefore blocks the next segment's capture,
contrary to the gapless-rotation claim. -/
theorem c1_dispatch_blocks_next_segment :
    c1State.continuous = true ∧ c1State.listening = true ∧
    c1State.pendingDispatch = true ∧ c1State.streamOpen = true ∧
    c1State.recState = RecState.inactive ∧
    (step "en" c1State (.dispatchOk 3000 "hei" "id1" "t1")).recState
      = RecState.recording := by
  refine ⟨by decide, by decide, by decide, by decide, by decide, ?_⟩
  have hp : c1State.pendingDispatch = true := by decide
  have hc : c1State.continuous = true := by decide
  have ho : c1State.streamOpen = true := by decide
  by_cases htr : ("hei".trim ≠ "")
  · simp [step, hp, htr, continueLoop, insertTranscript, hc, ho]
  · simp [step, hp, htr, continueLoop, hc, ho]

/-- C9: only non-empty trimmed text is ever persisted: every step of the
cloud capture session, every insert of the shared whisper-engine stop
handler, and every run of the fallback recognizer's result handler preserve
the store invariant that each record's text is non-empty and the trim of a
backend result; a result that trims to empty is never persisted; and interim
recognition text only updates the transient `interim` field, never the
store. -/
theorem c9_no_empty_or_interim_persisted :
    (∀ (lang : String) (s : SessState) (e : Ev), GoodStore s.transcripts →
        GoodStore ((step lang s e).transcripts)) ∧
    (∀ (lang id c : String) (src : Source) (text : String)
        (ts : List Transcript), GoodStore ts →
        GoodStore (whisperStopInsert lang id c src text ts)) ∧
    (∀ (lang id c : String) (rs : List RecResult) (s : BrowserState),
        GoodStore s.transcripts → GoodStore ((onResult lang id c rs s).transcripts)) ∧
    (∀ (lang id c : String) (rs : List RecResult) (s : BrowserState),
        (finalTextOf rs).trim = "" →
        (onResult lang id c rs s).transcripts = s.transcripts ∧
          (onResult lang id c rs s).interim = interimTextOf rs) ∧
    (∀ (lang : String) (s : SessState) (now : Nat) (text id c : String),
        text.trim = "" → s.pendingDispatch = true →
        (step lang s (.dispatchOk now text id c)).transcripts = s.transcripts) := by
  have hcons : ∀ (text : String) (t : Transcript) (ts : List Transcript),
      text.trim ≠ "" → t.text = text.trim → GoodStore ts → GoodStore (t :: ts) := by
    intro text t ts hne ht hts u hu
    cases hu with
    | head => exact ⟨by rw [ht]; exact hne, text, ht⟩
    | tail _ hu => exact hts u hu
  refine ⟨?_, ?_, ?_, ?_, ?_⟩
  · intro lang s e hgs
    cases e with
    | dispatchOk now text id c =>
        simp only [step]
        split
        · split
          · next hne =>
              have h2 : GoodStore (insertTranscript
                  { id := id, text := text.trim, language := lang,
                    createdAt := c, source := .cloud } s).transcripts := by
                exact hcons text _ _ hne rfl hgs
              simp only [continueLoop]
              split
              · split
                · exact h2
                · exact h2
              · exact h2
          · simp only [continueLoop]
            split
            · split
              · exact hgs
              · exact hgs
            · exact hgs
        · exact hgs
    | tick now avg =>
        simp only [step]
        split
        · exact hgs
        · split
          · exact hgs
          · split
            · split <;> split <;> exact hgs
            · split <;> exact hgs
    | timerFire now =>
        simp only [step]
        split
        · split
          · split <;> exact hgs
          · exact hgs
        · exact hgs
    | data size =>
        simp only [step]; split <;> exact hgs
    | stopped now =>
        simp only [step]
        split
        · split
          · exact hgs
          · simp only [continueLoop]
            split
            · split <;> exact hgs
            · exact hgs
        · exact hgs
    | dispatchErr now msg =>
        simp only [step]
        split
        · simp only [continueLoop]
          split
          · split <;> exact hgs
          · exact hgs
        · exact hgs
    | toggleStop now =>
        simp only [step]
        split
        · split <;> exact hgs
        · exact hgs
  · intro lang id c src text ts hgs
    unfold whisperStopInsert
    split
    · next hne => exact hcons text _ _ hne rfl hgs
    · exact hgs
  · intro lang id c rs s hgs
    by_cases hne : (finalTextOf rs).trim = ""
    · simpa [onResult, hne] using hgs
    · have := hcons (finalTextOf rs)
        { id := id, text := (finalTextOf rs).trim, language := lang,
          createdAt := c, source := .browser } s.transcripts hne rfl hgs
      simpa [onResult, hne] using this
  · intro lang id c rs s hfin
    simp [onResult, hfin]
  · intro lang s now text id c htrim hp
    simp [step, hp, htrim, continueLoop]
    split
    · split <;> rfl
    · rfl

/-- A sampler tick touches only the speech flag and the silence timer. -/
theorem step_tick_fields (lang : String) (s : SessState) (now avg : Nat) :
    (step lang s (.tick now avg)).continuous = s.continuous ∧
    (step lang s (.tick now avg)).chunkStart = s.chunkStart ∧
    (step lang s (.tick now avg)).recState = s.recState ∧
    (step lang s (.tick now avg)).dispatchCount = s.dispatchCount ∧
    (step lang s (.tick now avg)).transcripts = s.transcripts ∧
    (step lang s (.tick now avg)).persisted = s.persisted ∧
    (step lang s (.tick now avg)).pendingDispatch = s.pendingDispatch ∧
    (step lang s (.tick now avg)).streamOpen = s.streamOpen ∧
    (step lang s (.tick now avg)).listening = s.listening ∧
    (step lang s (.tick now avg)).chunkBytes = s.chunkBytes := by
  simp only [step]
  split
  · simp
  · split
    · simp
    · split
      · split <;> split <;> simp
      · split <;> simp

/-- A silence-timer fire touches only the silence timer and the recorder
state. -/
theorem step_fire_fields (lang : String) (s : SessState) (now : Nat) :
    (step lang s (.timerFire now)).continuous = s.continuous ∧
    (step lang s (.timerFire now)).chunkStart = s.chunkStart ∧
    (step lang s (.timerFire now)).speechDetected = s.speechDetected ∧
    (step lang s (.timerFire now)).dispatchCount = s.dispatchCount ∧
    (step lang s (.timerFire now)).chunkBytes = s.chunkBytes ∧
    (step lang s (.timerFire now)).pendingDispatch = s.pendingDispatch := by
  cases hs : s.silenceTimer with
  | none => simp [step, hs]
  | some d =>
      simp only [step, hs]
      split
      · split <;> simp
      · simp

/-- A sampler tick inside the warm-up window is a complete no-op. -/
theorem step_tick_warmup (lang : String) (s : SessState) (now avg : Nat)
    (hc : s.continuous = true) (hw : now - s.chunkStart < WARMUP_MS) :
    step lang s (.tick now avg) = s := by
  simp [step, hc, hw]

/-- A post-warm-up sampler tick leaves the speech flag down when the
amplitude is below the speech threshold. -/
theorem step_tick_speech_low (lang : String) (s : SessState) (now avg : Nat)
    (havg : ¬ SPEECH_THRESHOLD ≤ avg) :
    (step lang s (.tick now avg)).speechDetected = s.speechDetected := by
  by_cases hcont : s.continuous = true <;>
    by_cases hw : now - s.chunkStart < WARMUP_MS <;>
    by_cases hsil : avg < SILENCE_THRESHOLD <;>
    cases hs : s.silenceTimer <;>
    simp [step, hcont, hw, havg, hsil, hs]

/-- The silence timer after a post-warm-up sampler tick: a silent reading
arms it if idle (deadline a full silence delay later) and keeps it
otherwise; a reading at or above the silence threshold clears it. -/
theorem step_tick_timer (lang : String) (s : SessState) (now avg : Nat)
    (hc : s.continuous = true) (hw : ¬ now - s.chunkStart < WARMUP_MS) :
    (step lang s (.tick now avg)).silenceTimer =
      if avg < SILENCE_THRESHOLD then
        some (s.silenceTimer.getD (now + SILENCE_DELAY_MS))
      else none := by
  by_cases hsp : SPEECH_THRESHOLD ≤ avg <;>
    by_cases hsil : avg < SILENCE_THRESHOLD <;>
    cases hs : s.silenceTimer <;>
    simp [step, hc, hw, hsp, hsil, hs]

/-- A fire with no timer armed is a no-op. -/
theorem step_fire_none (lang : String) (s : SessState) (now : Nat)
    (h : s.silenceTimer = none) : step lang s (.timerFire now) = s := by
  simp [step, h]

/-- A fire before the armed deadline is a no-op. -/
theorem step_fire_early (lang : String) (s : SessState) (now d : Nat)
    (h : s.silenceTimer = some d) (hlt : ¬ d ≤ now) :
    step lang s (.timerFire now) = s := by
  simp [step, h, hlt]

/-- A fire at or past the armed deadline, with the recorder live, clears the
timer and requests the recorder stop. -/
theorem step_fire_close (lang : String) (s : SessState) (now d : Nat)
    (h : s.silenceTimer = some d) (hle : d ≤ now)
    (hrec : s.recState = .recording) :
    step lang s (.timerFire now)
      = { s with silenceTimer := none, recState := .stopRequested } := by
  simp [step, h, hle, hrec]

/-- Splitting a strictly increasing time line at one event: the segment
start lies before it, everything seen before it is earlier, everything after
later. -/
theorem pairwise_split {t0 : Nat} {evs seen rest : List Ev} {e : Ev}
    (heq : evs = seen ++ e :: rest)
    (h : List.Pairwise (· < ·) (t0 :: evs.map Ev.time)) :
    t0 < e.time ∧ (∀ x ∈ seen, Ev.time x < Ev.time e) ∧
      ∀ y ∈ rest, Ev.time e < Ev.time y := by
  subst heq
  rcases List.pairwise_cons.mp h with ⟨ht0, hp⟩
  rw [List.map_append, List.map_cons] at hp
  rcases List.pairwise_append.mp hp with ⟨_, hp2, hcross⟩
  refine ⟨ht0 _ (by simp), fun x hx => hcross _ (List.mem_map_of_mem _ hx) _ (by simp), ?_⟩
  intro y hy
  exact (List.pairwise_cons.mp hp2).1 _ (List.mem_map_of_mem _ hy)

/-- Trace induction behind C4: along any strictly timed trace of sampler
events from an active recording chunk that starts at `t0`, either the
recorder is still recording, or the segment was closed by the debounced
silence rule (`ClosedOK`).  The invariant carried through the trace is that
a pending timer is always well-armed (`ArmedOK`) with respect to the events
seen so far. -/
theorem c4_closure_aux (lang : String) (t0 : Nat) (evs : List Ev)
    (hall : ∀ e ∈ evs, samplerEv e = true)
    (htimes : List.Pairwise (· < ·) (t0 :: evs.map Ev.time)) :
    ∀ (rest seen : List Ev) (s : SessState), evs = seen ++ rest →
      s.continuous = true → s.chunkStart = t0 →
      ((s.recState = .recording ∧
          (s.silenceTimer = none ∨
            ∃ d, s.silenceTimer = some d ∧ ArmedOK t0 seen d)) ∨
        ClosedOK t0 evs) →
      ((runSess lang s rest).recState = .recording ∨ ClosedOK t0 evs) := by
  intro rest
  induction rest with
  | nil =>
      intro seen s _ _ _ hinv
      rcases hinv with ⟨hrec, _⟩ | hcl
      · exact Or.inl hrec
      · exact Or.inr hcl
  | cons e rest ih =>
      intro seen s heq hc hcs hinv
      rcases hinv with ⟨hrec, htimer⟩ | hcl
      case inr => exact Or.inr hcl
      have heq2 : evs = (seen ++ [e]) ++ rest := by
        rw [List.append_assoc, List.singleton_append]; exact heq
      have hsplit := pairwise_split heq htimes
      have hmem_e : e ∈ evs := by
        rw [heq]; exact List.mem_append_right _ (List.mem_cons_self _ _)
      have hrun : runSess lang s (e :: rest) = runSess lang (step lang s e) rest := rfl
      have hse := hall e hmem_e
      cases e with
      | tick now avg =>
          have ht0n : t0 < now := hsplit.1
          have hf := step_tick_fields lang s now avg
          by_cases hw : now - s.chunkStart < WARMUP_MS
          · -- warm-up tick: complete no-op on the state
            rw [hrun, step_tick_warmup lang s now avg hc hw]
            refine ih (seen ++ [.tick now avg]) s heq2 hc hcs (Or.inl ⟨hrec, ?_⟩)
            rcases htimer with hnone | ⟨d, hd, ta, a, hdv, hmem, ha, htage, hquiet⟩
            · exact Or.inl hnone
            · refine Or.inr ⟨d, hd, ta, a, hdv, List.mem_append_left _ hmem, ha, htage, ?_⟩
              intro n b hnb hlt
              rcases List.mem_append.mp hnb with h1 | h1
              · exact hquiet n b h1 hlt
              · -- a warm-up tick cannot come after the post-warm-up arming tick
                have hx := List.mem_singleton.mp h1
                cases hx
                rw [hcs] at hw
                omega
          · -- post warm-up
            have htmrv := step_tick_timer lang s now avg hc hw
            by_cases hsil : avg < SILENCE_THRESHOLD
            · rw [if_pos hsil] at htmrv
              cases htmr : s.silenceTimer with
              | none =>
                  -- arming: the timer deadline is now + delay
                  rw [htmr] at htmrv
                  simp only [Option.getD_none] at htmrv
                  rw [hrun]
                  refine ih (seen ++ [.tick now avg]) _ heq2 (hf.1.trans hc)
                    (hf.2.1.trans hcs) (Or.inl ⟨hf.2.2.1.trans hrec, Or.inr ?_⟩)
                  refine ⟨now + SILENCE_DELAY_MS, htmrv, now, avg, rfl,
                    List.mem_append_right _ (List.mem_singleton.mpr rfl), hsil, ?_, ?_⟩
                  · rw [hcs] at hw; omega
                  · intro n b hnb hlt
                    rcases List.mem_append.mp hnb with h1 | h1
                    · have := hsplit.2.1 _ h1
                      simp only [Ev.time] at this
                      omega
                    · have hx := List.mem_singleton.mp h1
                      cases hx
                      omega
              | some d =>
                  -- timer kept: extend the quiet window by this silent tick
                  rw [htmr] at htmrv
                  simp only [Option.getD_some] at htmrv
                  rcases htimer with hnone | ⟨d0, hd0, ta, a, hdv, hmem, ha, htage, hquiet⟩
                  · rw [htmr] at hnone; cases hnone
                  · rw [htmr] at hd0
                    rw [Option.some.inj hd0] at htmrv
                    rw [hrun]
                    refine ih (seen ++ [.tick now avg]) _ heq2 (hf.1.trans hc)
                      (hf.2.1.trans hcs) (Or.inl ⟨hf.2.2.1.trans hrec, Or.inr ?_⟩)
                    refine ⟨d0, htmrv, ta, a, hdv, List.mem_append_left _ hmem,
                      ha, htage, ?_⟩
                    intro n b hnb hlt
                    rcases List.mem_append.mp hnb with h1 | h1
                    · exact hquiet n b h1 hlt
                    · have hx := List.mem_singleton.mp h1
                      cases hx
                      exact hsil
            · -- cancel branch: the timer is cleared
              rw [if_neg hsil] at htmrv
              rw [hrun]
              exact ih (seen ++ [.tick now avg]) _ heq2 (hf.1.trans hc)
                (hf.2.1.trans hcs) (Or.inl ⟨hf.2.2.1.trans hrec, Or.inl htmrv⟩)
      | timerFire tf =>
          cases htmr : s.silenceTimer with
          | none =>
              rw [hrun, step_fire_none lang s tf htmr]
              exact ih (seen ++ [.timerFire tf]) s heq2 hc hcs
                (Or.inl ⟨hrec, Or.inl htmr⟩)
          | some d =>
              rcases htimer with hnone | ⟨d0, hd0, ta, a, hdv, hmem, ha, htage, hquiet⟩
              · rw [htmr] at hnone; cases hnone
              rw [htmr] at hd0
              rw [Option.some.inj hd0] at htmr
              by_cases hdl : d0 ≤ tf
              · -- the timer fires: the segment closes by the debounced rule
                refine Or.inr ⟨ta, a, tf, ?_, ha, htage, hmem_e, ?_, ?_⟩
                · rw [heq]; exact List.mem_append_left _ hmem
                · omega
                · intro n b hnb hta hntf
                  rw [heq] at hnb
                  rcases List.mem_append.mp hnb with h1 | h1
                  · exact hquiet n b h1 hta
                  · rcases List.mem_cons.mp h1 with h2 | h2
                    · cases h2
                    · have := hsplit.2.2 _ h2
                      simp only [Ev.time] at this
                      omega
              · rw [hrun, step_fire_early lang s tf d0 htmr hdl]
                refine ih (seen ++ [.timerFire tf]) s heq2 hc hcs
                  (Or.inl ⟨hrec, Or.inr ⟨d0, htmr, ta, a, hdv,
                    List.mem_append_left _ hmem, ha, htage, ?_⟩⟩)
                intro n b hnb hlt
                rcases List.mem_append.mp hnb with h1 | h1
                · exact hquiet n b h1 hlt
                · have hx := List.mem_singleton.mp h1
                  cases hx
      | data size => simp [samplerEv] at hse
      | stopped now => simp [samplerEv] at hse
      | dispatchOk now text id c => simp [samplerEv] at hse
      | dispatchErr now msg => simp [samplerEv] at hse
      | toggleStop now => simp [samplerEv] at hse

/-- Auxiliary for C10: under sampler events whose speech-level readings all
fall inside the warm-up window, the speech flag stays down and the segment
bookkeeping is untouched. -/
theorem warmup_speech_aux (lang : String) (t0 : Nat) :
    ∀ (evs : List Ev) (s : SessState),
      s.continuous = true → s.chunkStart = t0 → s.speechDetected = false →
      (∀ e ∈ evs, samplerEv e = true) →
      (∀ now avg, Ev.tick now avg ∈ evs → SPEECH_THRESHOLD ≤ avg →
        now - t0 < WARMUP_MS) →
      (runSess lang s evs).continuous = true ∧
        (runSess lang s evs).chunkStart = t0 ∧
        (runSess lang s evs).speechDetected = false ∧
        (runSess lang s evs).dispatchCount = s.dispatchCount := by
  intro evs
  induction evs with
  | nil => intro s hc h1 h2 _ _; exact ⟨hc, h1, h2, rfl⟩
  | cons e rest ih =>
      intro s hc h1 h2 hall hwarm
      have hse := hall e (List.mem_cons_self _ _)
      have hstep : (step lang s e).continuous = true ∧
          (step lang s e).chunkStart = t0 ∧
          (step lang s e).speechDetected = false ∧
          (step lang s e).dispatchCount = s.dispatchCount := by
        cases e with
        | tick now avg =>
            have hf := step_tick_fields lang s now avg
            refine ⟨hf.1.trans hc, hf.2.1.trans h1, ?_, hf.2.2.2.1⟩
            by_cases hsp : SPEECH_THRESHOLD ≤ avg
            · have hw : now - s.chunkStart < WARMUP_MS := by
                rw [h1]
                exact hwarm now avg (List.mem_cons_self _ _) hsp
              rw [step_tick_warmup lang s now avg hc hw]
              exact h2
            · rw [step_tick_speech_low lang s now avg hsp]
              exact h2
        | timerFire now =>
            have hf := step_fire_fields lang s now
            exact ⟨hf.1.trans hc, hf.2.1.trans h1, hf.2.2.1.trans h2, hf.2.2.2.1⟩
        | data size => simp [samplerEv] at hse
        | stopped now => simp [samplerEv] at hse
        | dispatchOk now text id c => simp [samplerEv] at hse
        | dispatchErr now msg => simp [samplerEv] at hse
        | toggleStop now => simp [samplerEv] at hse
      have hres := ih (step lang s e) hstep.1 hstep.2.1 hstep.2.2.1
        (fun e2 he2 => hall e2 (List.mem_cons_of_mem _ he2))
        (fun n a hna hsp => hwarm n a (List.mem_cons_of_mem _ hna) hsp)
      exact ⟨hres.1, hres.2.1, hres.2.2.1, hres.2.2.2.trans hstep.2.2.2⟩

/-- C10: the amplitude sampler skips entirely during the warm-up window, so
a segment whose only speech-level amplitude readings occur inside the
warm-up is treated as containing no speech: the speech flag stays down over
the whole sampler trace, no dispatch happens along it, and the segment's
stop handler discards it without issuing a transcription dispatch. -/
theorem c10_warmup_speech_discarded (lang : String) (s0 : SessState)
    (t0 : Nat) (evs : List Ev)
    (hfresh : FreshSegment s0 t0) (hsp0 : s0.speechDetected = false)
    (hall : ∀ e ∈ evs, samplerEv e = true)
    (hwarm : ∀ now avg, Ev.tick now avg ∈ evs → SPEECH_THRESHOLD ≤ avg →
      now - t0 < WARMUP_MS) :
    (runSess lang s0 evs).speechDetected = false ∧
    (runSess lang s0 evs).dispatchCount = s0.dispatchCount ∧
    ∀ now2 : Nat,
      (step lang (runSess lang s0 evs) (.stopped now2)).dispatchCount
        = s0.dispatchCount := by
  obtain ⟨hc, hrec, hcs, htm⟩ := hfresh
  have h := warmup_speech_aux lang t0 evs s0 hc hcs hsp0 hall hwarm
  refine ⟨h.2.2.1, h.2.2.2, ?_⟩
  intro now2
  by_cases hr : (runSess lang s0 evs).recState = RecState.stopRequested
  · have hguard : ¬ (NOISE_FLOOR_BYTES < (runSess lang s0 evs).chunkBytes ∧
        (runSess lang s0 evs).speechDetected = true) := by
      rintro ⟨-, hsp⟩
      rw [h.2.2.1] at hsp
      cases hsp
    have hstep : step lang (runSess lang s0 evs) (.stopped now2)
        = continueLoop now2
            { runSess lang s0 evs with recState := RecState.inactive } := by
      simp [step, hr, hguard]
    rw [hstep, continueLoop_dispatchCount]
    exact h.2.2.2
  · have hstep : step lang (runSess lang s0 evs) (.stopped now2)
        = runSess lang s0 evs := by
      simp [step, hr]
    rw [hstep]
    exact h.2.2.2

/-- C4: the debounced silence-closure timing rule: (1) an amplitude sample
inside a segment's warm-up window is skipped entirely, so it never arms the
closure timer; (2) any post-warm-up sample at or above the silence threshold
clears a pending closure timer; (3) along any strictly timed sampler trace
from a fresh segment, the recorder leaves the recording state only if some
post-warm-up sample read silence, the timer fired a full silence delay
later, and every sample in the waiting window stayed below the silence
threshold (`ClosedOK`). -/
theorem c4_silence_closure_debounced (lang : String) :
    (∀ (s : SessState) (now avg : Nat), s.continuous = true →
        now - s.chunkStart < WARMUP_MS → step lang s (.tick now avg) = s) ∧
    (∀ (s : SessState) (now avg : Nat), s.continuous = true →
        ¬ now - s.chunkStart < WARMUP_MS → ¬ avg < SILENCE_THRESHOLD →
        (step lang s (.tick now avg)).silenceTimer = none) ∧
    (∀ (s0 : SessState) (t0 : Nat) (evs : List Ev),
        FreshSegment s0 t0 →
        (∀ e ∈ evs, samplerEv e = true) →
        List.Pairwise (· < ·) (t0 :: evs.map Ev.time) →
        (runSess lang s0 evs).recState ≠ .recording →
        ClosedOK t0 evs) := by
  refine ⟨step_tick_warmup lang, ?_, ?_⟩
  · intro s now avg hc hw hsil
    rw [step_tick_timer lang s now avg hc hw, if_neg hsil]
  · intro s0 t0 evs hfresh hall htimes hne
    obtain ⟨hc, hrec, hcs, htm⟩ := hfresh
    rcases c4_closure_aux lang t0 evs hall htimes evs [] s0 rfl hc hcs
      (Or.inl ⟨hrec, Or.inl htm⟩) with h | h
    · exact absurd h hne
    · exact h

/-! ## Witnesses -/

/-- Witness for C3: a closed no-speech segment of 100 bytes is discarded
with no dispatch. -/
theorem c3_witness :
    c3State.recState = RecState.stopRequested ∧
    c3State.pendingDispatch = false ∧
    ((step "en" c3State (.stopped 1000)).dispatchCount
        = c3State.dispatchCount ∧
      (step "en" c3State (.stopped 1000)).pendingDispatch = false) :=
  ⟨rfl, rfl,
    (c3_no_speech_no_dispatch "en" c3State 1000 rfl rfl).1 (Or.inl rfl)⟩

/-- Witness for C6: a failing dispatch on a live session surfaces the error,
keeps the store and stream intact, and restarts the rotation. -/
theorem c6_witness :
    c6State.pendingDispatch = true ∧ c6State.continuous = true ∧
    c6State.streamOpen = true ∧
    ((step "en" c6State (.dispatchErr 2000 "boom")).error = some "boom" ∧
      (step "en" c6State (.dispatchErr 2000 "boom")).transcripts
        = c6State.transcripts ∧
      (step "en" c6State (.dispatchErr 2000 "boom")).persisted
        = c6State.persisted ∧
      (step "en" c6State (.dispatchErr 2000 "boom")).streamOpen = true ∧
      (step "en" c6State (.dispatchErr 2000 "boom")).continuous = true ∧
      (step "en" c6State (.dispatchErr 2000 "boom")).listening
        = c6State.listening ∧
      (step "en" c6State (.dispatchErr 2000 "boom")).recState = .recording ∧
      (step "en" c6State (.dispatchErr 2000 "boom")).isProcessing = false) :=
  ⟨rfl, rfl, rfl,
    c6_dispatch_failure_recoverable "en" "boom" 2000 c6State rfl rfl rfl⟩

/-- Witness for C9: the empty store satisfies the invariant and an insert of
a padded result through the whisper stop handler preserves it. -/
theorem c9_witness :
    GoodStore ([] : List Transcript) ∧
    GoodStore (whisperStopInsert "en" "id0" "t0" Source.cloud " hei " []) :=
  ⟨fun t ht => absurd ht (List.not_mem_nil t),
    c9_no_empty_or_interim_persisted.2.1 "en" "id0" "t0" Source.cloud " hei "
      [] (fun t ht => absurd ht (List.not_mem_nil t))⟩

/-- Witness for C10: a trace whose only speech-level reading is at 100 ms
(inside warm-up) leaves the speech flag down and closes without dispatch. -/
theorem c10_witness :
    FreshSegment sess0 0 ∧ sess0.speechDetected = false ∧
    (∀ e ∈ c10Trace, samplerEv e = true) ∧
    ((runSess "en" sess0 c10Trace).speechDetected = false ∧
      (runSess "en" sess0 c10Trace).dispatchCount = sess0.dispatchCount ∧
      ∀ now2 : Nat,
        (step "en" (runSess "en" sess0 c10Trace) (.stopped now2)).dispatchCount
          = sess0.dispatchCount) := by
  have hwarm : ∀ now avg, Ev.tick now avg ∈ c10Trace →
      SPEECH_THRESHOLD ≤ avg → now - 0 < WARMUP_MS := by
    intro now avg h hsp
    simp [c10Trace] at h
    rcases h with ⟨rfl, rfl⟩ | ⟨rfl, rfl⟩
    · decide
    · exact absurd hsp (by decide)
  exact ⟨by decide, rfl, by decide,
    c10_warmup_speech_discarded "en" sess0 0 c10Trace (by decide) rfl
      (by decide) hwarm⟩

/-- Witness for C4: a fresh segment whose trace reads silence at 600 ms and
fires the timer at 2100 ms closes by the debounced rule. -/
theorem c4_witness :
    (∀ (s : SessState), s.continuous = true → 100 - s.chunkStart < WARMUP_MS →
      step "en" s (.tick 100 7) = s) ∧
    FreshSegment sess0 0 ∧ (∀ e ∈ c4Trace, samplerEv e = true) ∧
    List.Pairwise (· < ·) (0 :: c4Trace.map Ev.time) ∧
    (runSess "en" sess0 c4Trace).recState ≠ RecState.recording ∧
    ClosedOK 0 c4Trace := by
  refine ⟨fun s hc hw => (c4_silence_closure_debounced "en").1 s 100 7 hc hw,
    by decide, by decide, by decide, by decide, ?_⟩
  exact (c4_silence_closure_debounced "en").2.2 sess0 0 c4Trace (by decide)
    (by decide) (by decide) (by decide)

end Dyngeseth
